import Mathlib

/-!
# Connect Lex bot association resource

A shallow embedding of `aws/resource_aws_connect_lex_bot_association.go`:
the identity codec (`fmt.Sprintf("%s:%s:%s", ...)` and
`resourceAwsConnectLexBotAssociationParseID`), the CRUD handlers, the importer
and the schema declaration, followed by the properties established about them.

Go strings are embedded as lists of characters.  The only separator involved is
`:`, a one-byte character that never occurs inside a multi-byte UTF-8 sequence,
so splitting a list of characters agrees with splitting the bytes.
-/

/-- A Go `string`. -/
abbrev GoString := List Char

/-- The Go builtin `len(s)` of a string: the number of bytes of its UTF-8
encoding. -/
def len (s : GoString) : Nat :=
  (s.map Char.utf8Size).sum

/-! ## The pieces of the Go standard library that the resource calls -/

namespace strings

/-- The Go function `strings.HasPrefix(s, p)`. -/
def HasPrefix : GoString → GoString → Bool
  | _, [] => true
  | [], _ :: _ => false
  | c :: s, p :: ps => c == p && HasPrefix s ps

/-- The Go function `strings.Index(s, substr)`: the position of the first
occurrence of `substr` in `s`; `none` stands for the result `-1`. -/
def Index : GoString → GoString → Option Nat
  | [], substr => if substr = [] then some 0 else none
  | c :: s, substr =>
    if HasPrefix (c :: s) substr then some 0
    else (Index s substr).map (· + 1)

/-- The loop of `strings.Count` for a non-empty `substr`: counts the
non-overlapping occurrences.  Every round consumes at least one character of
`s`, so `fuel = len(s)` rounds are enough. -/
def countLoop (substr : GoString) : Nat → GoString → Nat
  | 0, _ => 0
  | fuel + 1, s =>
    match Index s substr with
    | none => 0
    | some i => 1 + countLoop substr fuel (s.drop (i + substr.length))

/-- The Go function `strings.Count(s, substr)`. -/
def Count (s substr : GoString) : Nat :=
  if substr = [] then s.length + 1 else countLoop substr s.length s

/-- The Go function `strings.explode(s, n)`: splits `s` into at most `n`
one-character strings, the last one holding the unsplit remainder. -/
def explode (s : GoString) (n : Int) : List GoString :=
  let l : Int := s.length
  let n := if n < 0 ∨ n > l then l else n
  if n > 0 then
    (s.take (n - 1).toNat).map (fun c => [c]) ++ [s.drop (n - 1).toNat]
  else []

/-- The `for i < n` loop of `strings.genSplit`; `k` is the number of cuts that
may still be made (`n - i`). -/
def genSplitLoop (sep : GoString) (sepSave : Nat) : Nat → GoString → List GoString
  | 0, s => [s]
  | k + 1, s =>
    match Index s sep with
    | none => [s]
    | some m => s.take (m + sepSave) :: genSplitLoop sep sepSave k (s.drop (m + sep.length))

/-- The Go function `strings.genSplit(s, sep, sepSave, n)`. -/
def genSplit (s sep : GoString) (sepSave : Nat) (n : Int) : List GoString :=
  if n = 0 then []
  else if sep = [] then explode s n
  else
    let n : Int := if n < 0 then (Count s sep : Int) + 1 else n
    let n : Int := if n > (s.length : Int) + 1 then (s.length : Int) + 1 else n
    genSplitLoop sep sepSave (n - 1).toNat s

/-- The Go function `strings.SplitN(s, sep, n)`. -/
def SplitN (s sep : GoString) (n : Int) : List GoString :=
  genSplit s sep 0 n

end strings

/-- A Go `error` value.  `Error` is the text of `err.Error()`; `Code` is the
AWS error code carried by an error of the remote API (empty for every other
error). -/
structure GoError where
  Error : GoString
  Code : GoString
  deriving DecidableEq, Repr

namespace fmt

/-- The verb `%s` applied to a value of type `error`: the text of the error, and
`%!s(<nil>)` for the nil interface value. -/
def verbS : Option GoError → GoString
  | some e => e.Error
  | none => "%!s(<nil>)".toList

/-- The call `fmt.Sprintf("%s:%s:%s", a, b, c)`. -/
def SprintfID (a b c : GoString) : GoString :=
  a ++ ":".toList ++ b ++ ":".toList ++ c

/-- The call `fmt.Errorf(format, ...)` once its text has been formatted. -/
def Errorf (text : GoString) : GoError :=
  { Error := text, Code := [] }

end fmt

/-! ## Identity codec -/

/-- The function `resourceAwsConnectLexBotAssociationParseID`. -/
def resourceAwsConnectLexBotAssociationParseID (id : GoString) :
    GoString × GoString × GoString × Option GoError :=
  let parts := strings.SplitN id ":".toList 3
  if parts.length ≠ 3 ∨ parts.getD 0 [] = [] ∨ parts.getD 1 [] = [] ∨ parts.getD 2 [] = [] then
    ([], [], [], some (fmt.Errorf ("unexpected format of ID (".toList ++ id ++
      "), expected instanceID:name:region".toList)))
  else
    (parts.getD 0 [], parts.getD 1 [], parts.getD 2 [], none)

/-! ## The plugin SDK: diagnostics, resource data, schema -/

namespace diag

/-- The type `diag.Severity`. -/
inductive Severity where
  | Error
  | Warning
  deriving DecidableEq, Repr

/-- The type `diag.Diagnostic`. -/
structure Diagnostic where
  Severity : Severity
  Summary : GoString
  deriving DecidableEq, Repr

/-- The type `diag.Diagnostics`; the empty list is the `nil` a handler returns on
success. -/
abbrev Diagnostics := List Diagnostic

/-- The function `diag.FromErr`. -/
def FromErr : Option GoError → Diagnostics
  | none => []
  | some err => [{ Severity := Severity.Error, Summary := err.Error }]

/-- The method `Diagnostics.HasError`. -/
def HasError (diags : Diagnostics) : Bool :=
  diags.any (fun x => x.Severity == Severity.Error)

end diag

namespace schema

/-- The names of the attributes the resource declares. -/
inductive Key where
  | bot_name
  | instance_id
  | lex_region
  deriving DecidableEq, Repr

/-- The state held by a `*schema.ResourceData` of this resource: the resource ID
and the three string attributes.  An attribute that was never set reads as the
empty string, the zero value. -/
structure ResourceData where
  id : GoString
  bot_name : GoString
  instance_id : GoString
  lex_region : GoString
  deriving DecidableEq, Repr

/-- The method `d.Id()`. -/
def ResourceData.Id (d : ResourceData) : GoString := d.id

/-- The method `d.SetId(v)`. -/
def ResourceData.SetId (d : ResourceData) (v : GoString) : ResourceData :=
  { d with id := v }

/-- The method `d.Get(key)` followed by the assertion `.(string)`. -/
def ResourceData.Get (d : ResourceData) : Key → GoString
  | Key.bot_name => d.bot_name
  | Key.instance_id => d.instance_id
  | Key.lex_region => d.lex_region

/-- The method `d.Set(key, value)` for a string or a `*string`; `none` is the nil
pointer, which the SDK stores as the zero value. -/
def ResourceData.Set (d : ResourceData) (key : Key) (value : Option GoString) :
    ResourceData :=
  match key with
  | Key.bot_name => { d with bot_name := value.getD [] }
  | Key.instance_id => { d with instance_id := value.getD [] }
  | Key.lex_region => { d with lex_region := value.getD [] }

/-- The type `schema.ValueType`, as far as the resource uses it. -/
inductive ValueType where
  | TypeString
  deriving DecidableEq, Repr

/-- The type `schema.Schema`, with the fields the resource fills in and
`ForceNew`; a field left out of a Go composite literal has its zero value. -/
structure Schema where
  Type_ : ValueType
  Required : Bool := false
  ForceNew : Bool := false
  ValidateFunc : Option (GoString → Bool) := none

end schema

namespace validation

/-- The function `validation.StringLenBetween(min, max)`: whether the value is
accepted, that is, whether `len(v) < min || len(v) > max` is false. -/
def StringLenBetween (min max : Nat) : GoString → Bool :=
  fun v => !(decide (len v < min) || decide (len v > max))

end validation

/-! ## The remote Connect API -/

namespace connect

/-- The type `connect.LexBot`; both fields are `*string`. -/
structure LexBot where
  Name : Option GoString
  LexRegion : Option GoString
  deriving DecidableEq, Repr

/-- The type `connect.AssociateLexBotInput`. -/
structure AssociateLexBotInput where
  InstanceId : Option GoString
  LexBot : LexBot
  deriving DecidableEq, Repr

/-- The type `connect.DisassociateLexBotInput`. -/
structure DisassociateLexBotInput where
  InstanceId : Option GoString
  BotName : Option GoString
  LexRegion : Option GoString
  deriving DecidableEq, Repr

/-- The error code with which the Connect API reports that a resource does not
exist. -/
def ErrCodeResourceNotFoundException : GoString := "ResourceNotFoundException".toList

end connect

/-- Whether an error of the remote API reports that the resource is not found. -/
def GoError.isNotFound (e : GoError) : Bool :=
  e.Code == connect.ErrCodeResourceNotFoundException

namespace aws

/-- The function `aws.String`. -/
def String (v : GoString) : Option GoString := some v

end aws

/-- A request sent to the remote API, as recorded in the trace of a handler. -/
inductive RemoteCall where
  | AssociateLexBot (input : connect.AssociateLexBotInput)
  | DisassociateLexBot (input : connect.DisassociateLexBotInput)
  | LexBotAssociationByName (instanceID name : GoString)
  deriving DecidableEq, Repr

/-- The collaborators reached through `meta.(*AWSClient).connectconn`: the two
mutating calls of the Connect client and the finder
`finder.LexBotAssociationByName`.  The remote side is an arbitrary state machine
over `σ`; every call returns the next remote state with its Go results. -/
structure Remote (σ : Type) where
  AssociateLexBotWithContext : σ → connect.AssociateLexBotInput → σ × Option GoError
  DisassociateLexBot : σ → connect.DisassociateLexBotInput → σ × Option GoError
  LexBotAssociationByName : σ → GoString → GoString → σ × Option connect.LexBot × Option GoError

/-- What a handler leaves behind: the resource data, the diagnostics it returns,
the remote state and the requests it sent, oldest first. -/
structure Outcome (σ : Type) where
  d : schema.ResourceData
  diags : diag.Diagnostics
  world : σ
  calls : List RemoteCall

/-- A CRUD handler: `meta` contributes the remote client, the remote state is
threaded through. -/
abbrev Handler (σ : Type) := Remote σ → σ → schema.ResourceData → Outcome σ

namespace schema

/-- The type `schema.ResourceImporter`; `State` returns the imported resources and
an error. -/
structure ResourceImporter where
  State : ResourceData → List ResourceData × Option GoError

/-- The type `schema.ResourceTimeout`, with the two timeouts the resource sets. -/
structure ResourceTimeout where
  Create : Option Nat
  Delete : Option Nat

/-- The type `schema.Resource`; a handler that is not declared is `none`. -/
structure Resource (σ : Type) where
  CreateContext : Option (Handler σ) := none
  ReadContext : Option (Handler σ) := none
  UpdateContext : Option (Handler σ) := none
  DeleteContext : Option (Handler σ) := none
  Importer : Option ResourceImporter := none
  Timeouts : Option ResourceTimeout := none
  Schema : Key → Schema

/-- What the SDK does with a planned change. -/
inductive ChangeHandling where
  | Replacement
  | InPlaceUpdate
  | Unsupported
  deriving DecidableEq, Repr

/-- How the SDK handles a change of the attribute `key` of an existing resource:
the diff of a `ForceNew` attribute requires a new resource (delete, then
create); any other change is handed to the update handler of the resource. -/
def Resource.handleChange {σ : Type} (r : Resource σ) (key : Key) : ChangeHandling :=
  if (r.Schema key).ForceNew then ChangeHandling.Replacement
  else if r.UpdateContext.isSome then ChangeHandling.InPlaceUpdate
  else ChangeHandling.Unsupported

end schema

/-! ## The handlers of the resource -/

/-- The function `resourceAwsConnectLexBotAssociationRead`. -/
def resourceAwsConnectLexBotAssociationRead {σ : Type} : Handler σ :=
  fun conn w d =>
    let instanceID := d.Get schema.Key.instance_id
    let name := d.Get schema.Key.bot_name
    match conn.LexBotAssociationByName w instanceID name with
    | (w1, _, some err) =>
      { d := d
        diags := diag.FromErr (some (fmt.Errorf
          ("error finding LexBot Association by name (".toList ++ name ++ "): ".toList
            ++ fmt.verbS (some err))))
        world := w1
        calls := [RemoteCall.LexBotAssociationByName instanceID name] }
    | (w1, none, none) =>
      { d := d
        diags := diag.FromErr (some (fmt.Errorf
          ("error finding LexBot Association by name (".toList ++ name
            ++ "): not found".toList)))
        world := w1
        calls := [RemoteCall.LexBotAssociationByName instanceID name] }
    | (w1, some lexBot, none) =>
      let d1 := d.Set schema.Key.bot_name lexBot.Name
      let d2 := d1.Set schema.Key.instance_id (some instanceID)
      let d3 := d2.Set schema.Key.lex_region lexBot.LexRegion
      let d4 := d3.SetId (fmt.SprintfID instanceID (d3.Get schema.Key.bot_name)
        (d3.Get schema.Key.lex_region))
      { d := d4
        diags := []
        world := w1
        calls := [RemoteCall.LexBotAssociationByName instanceID name] }

/-- The function `resourceAwsConnectLexBotAssociationCreate`. -/
def resourceAwsConnectLexBotAssociationCreate {σ : Type} : Handler σ :=
  fun conn w d =>
    let botAssociation : connect.LexBot :=
      { Name := aws.String (d.Get schema.Key.bot_name)
        LexRegion := aws.String (d.Get schema.Key.lex_region) }
    let input : connect.AssociateLexBotInput :=
      { InstanceId := aws.String (d.Get schema.Key.instance_id)
        LexBot := botAssociation }
    let lbaId := fmt.SprintfID (d.Get schema.Key.instance_id) (d.Get schema.Key.bot_name)
      (d.Get schema.Key.lex_region)
    match conn.AssociateLexBotWithContext w input with
    | (w1, some err) =>
      { d := d
        diags := diag.FromErr (some (fmt.Errorf
          ("error creating Connect Lex Bot Association (".toList ++ lbaId ++ "): ".toList
            ++ fmt.verbS (some err))))
        world := w1
        calls := [RemoteCall.AssociateLexBot input] }
    | (w1, none) =>
      let d1 := d.SetId lbaId
      let r := resourceAwsConnectLexBotAssociationRead conn w1 d1
      { r with calls := RemoteCall.AssociateLexBot input :: r.calls }

/-- The function `resourceAwsConnectLexBotAssociationDelete`. -/
def resourceAwsConnectLexBotAssociationDelete {σ : Type} : Handler σ :=
  fun conn w d =>
    let (instanceID, name, region, err) := resourceAwsConnectLexBotAssociationParseID d.Id
    if err ≠ none then
      { d := d, diags := diag.FromErr err, world := w, calls := [] }
    else
      let input : connect.DisassociateLexBotInput :=
        { InstanceId := aws.String instanceID
          BotName := aws.String name
          LexRegion := aws.String region }
      let (w1, dissErr) := conn.DisassociateLexBot w input
      if dissErr ≠ none then
        { d := d
          diags := diag.FromErr (some (fmt.Errorf
            ("error deleting Connect Lex Bot Association (".toList ++ instanceID
              ++ "): ".toList ++ fmt.verbS err)))
          world := w1
          calls := [RemoteCall.DisassociateLexBot input] }
      else
        { d := d, diags := [], world := w1, calls := [RemoteCall.DisassociateLexBot input] }

/-- The `State` function of the importer of the resource. -/
def resourceAwsConnectLexBotAssociationImporterState (d : schema.ResourceData) :
    List schema.ResourceData × Option GoError :=
  let (instanceID, name, region, err) := resourceAwsConnectLexBotAssociationParseID d.Id
  if err ≠ none then ([], err)
  else
    let d1 := d.Set schema.Key.bot_name (some name)
    let d2 := d1.Set schema.Key.instance_id (some instanceID)
    let d3 := d2.Set schema.Key.lex_region (some name)
    let d4 := d3.SetId (fmt.SprintfID instanceID name region)
    ([d4], none)

/-- The function `resourceAwsConnectLexBotAssociation`.  The two timeouts are the
constants `waiter.ConnectLexBotAssociationCreateTimeout` and
`waiter.ConnectLexBotAssociationDeleteTimeout`. -/
def resourceAwsConnectLexBotAssociation (σ : Type) (createTimeout deleteTimeout : Nat) :
    schema.Resource σ :=
  { CreateContext := some resourceAwsConnectLexBotAssociationCreate
    ReadContext := some resourceAwsConnectLexBotAssociationRead
    UpdateContext := some resourceAwsConnectLexBotAssociationRead
    DeleteContext := some resourceAwsConnectLexBotAssociationDelete
    Importer := some { State := resourceAwsConnectLexBotAssociationImporterState }
    Timeouts := some { Create := some createTimeout, Delete := some deleteTimeout }
    Schema := fun key =>
      match key with
      | schema.Key.bot_name =>
        { Type_ := schema.ValueType.TypeString
          Required := true
          ValidateFunc := some (validation.StringLenBetween 2 50) }
      | schema.Key.instance_id =>
        { Type_ := schema.ValueType.TypeString
          Required := true }
      | schema.Key.lex_region =>
        { Type_ := schema.ValueType.TypeString
          Required := true } }

/-! ## A reference remote service, used to exhibit concrete runs -/

/-- An association held by the remote service: instance, bot name, Lex region. -/
abbrev Association := GoString × GoString × GoString

/-- A remote Connect service holding a list of associations: associating adds
one, disassociating removes it or reports `ResourceNotFoundException` when it is
absent, and the finder returns the first association of the instance with the
given bot name, or `nil` without an error when there is none. -/
def connectService : Remote (List Association) where
  AssociateLexBotWithContext w input :=
    ((input.InstanceId.getD [], input.LexBot.Name.getD [], input.LexBot.LexRegion.getD []) :: w,
      none)
  DisassociateLexBot w input :=
    let a : Association :=
      (input.InstanceId.getD [], input.BotName.getD [], input.LexRegion.getD [])
    if a ∈ w then (w.erase a, none)
    else (w, some { Error := "ResourceNotFoundException: Lex bot association not found".toList
                    Code := connect.ErrCodeResourceNotFoundException })
  LexBotAssociationByName w instanceID name :=
    match w.find? (fun a => decide (a.1 = instanceID ∧ a.2.1 = name)) with
    | some a => (w, some { Name := some a.2.1, LexRegion := some a.2.2 }, none)
    | none => (w, none, none)

/-- A remote service on which every call fails with the same error. -/
def failingService (e : GoError) : Remote Unit where
  AssociateLexBotWithContext w _ := (w, some e)
  DisassociateLexBot w _ := (w, some e)
  LexBotAssociationByName w _ _ := (w, none, some e)

/-- An error of the remote API that is not a not-found report. -/
def throttlingError : GoError :=
  { Error := "ThrottlingException: Rate exceeded".toList
    Code := "ThrottlingException".toList }

/-- The resource data of the configuration `instance_id = "i-1"`,
`bot_name = "bot-a"`, `lex_region = "us-east-1"`, with the given ID. -/
def sampleData (id : GoString) : schema.ResourceData :=
  { id := id, bot_name := "bot-a".toList, instance_id := "i-1".toList,
    lex_region := "us-east-1".toList }

/-- A remote service like `connectService` whose finder does not see any
association: it returns `nil` without an error. -/
def staleFinderService : Remote (List Association) where
  AssociateLexBotWithContext := connectService.AssociateLexBotWithContext
  DisassociateLexBot := connectService.DisassociateLexBot
  LexBotAssociationByName w _ _ := (w, none, none)

/-- A remote service whose finder returns the bot "bot-a" without a Lex region
(a nil `LexRegion`); the two other calls succeed. -/
def regionlessService : Remote Unit where
  AssociateLexBotWithContext w _ := (w, none)
  DisassociateLexBot w _ := (w, none)
  LexBotAssociationByName w _ _ := (w, some { Name := some "bot-a".toList, LexRegion := none }, none)

/-! ## Names for the values the handlers build -/

/-- The error `resourceAwsConnectLexBotAssociationParseID` returns for `id`. -/
def parseIDError (id : GoString) : GoError :=
  fmt.Errorf ("unexpected format of ID (".toList ++ id ++
    "), expected instanceID:name:region".toList)

/-- The request `resourceAwsConnectLexBotAssociationCreate` builds from the
configuration. -/
def createInput (d : schema.ResourceData) : connect.AssociateLexBotInput :=
  { InstanceId := aws.String (d.Get schema.Key.instance_id)
    LexBot := { Name := aws.String (d.Get schema.Key.bot_name)
                LexRegion := aws.String (d.Get schema.Key.lex_region) } }

/-- The ID `lbaId` that `resourceAwsConnectLexBotAssociationCreate` builds from the
configuration. -/
def createLbaId (d : schema.ResourceData) : GoString :=
  fmt.SprintfID (d.Get schema.Key.instance_id) (d.Get schema.Key.bot_name)
    (d.Get schema.Key.lex_region)

/-- The request `resourceAwsConnectLexBotAssociationDelete` builds from the parts
of the ID. -/
def deleteInput (instanceID name region : GoString) : connect.DisassociateLexBotInput :=
  { InstanceId := aws.String instanceID
    BotName := aws.String name
    LexRegion := aws.String region }

/-! ## Splitting on a one-character separator -/

namespace strings

theorem HasPrefix_single (x c : Char) (s : GoString) :
    HasPrefix (x :: s) [c] = (x == c) := by
  cases s <;> simp [HasPrefix]

theorem Index_single_cons (x c : Char) (s : GoString) :
    Index (x :: s) [c] = if x = c then some 0 else (Index s [c]).map (· + 1) := by
  simp [Index, HasPrefix_single]

theorem Index_single_of_not_mem (c : Char) :
    ∀ s : GoString, c ∉ s → Index s [c] = none
  | [], _ => by simp [Index]
  | x :: s, h => by
    have hx : ¬ x = c := fun e => h (by simp [e])
    have hs : c ∉ s := fun e => h (by simp [e])
    simp [Index_single_cons, hx, Index_single_of_not_mem c s hs]

theorem Index_single_append (c : Char) (r : GoString) :
    ∀ a : GoString, c ∉ a → Index (a ++ c :: r) [c] = some a.length
  | [], _ => by simp [Index_single_cons]
  | x :: a, h => by
    have hx : ¬ x = c := fun e => h (by simp [e])
    have ha : c ∉ a := fun e => h (by simp [e])
    simp [Index_single_cons, hx, Index_single_append c r a ha]

theorem Index_single_some (c : Char) :
    ∀ (s : GoString) (m : Nat), Index s [c] = some m →
      c ∉ s.take m ∧ s = s.take m ++ c :: s.drop (m + 1)
  | [], m, h => by simp [Index] at h
  | x :: s, m, h => by
    rw [Index_single_cons] at h
    by_cases hx : x = c
    · simp [hx] at h
      subst h
      simp [hx]
    · simp only [hx, if_false, Option.map_eq_some'] at h
      obtain ⟨k, hk, rfl⟩ := h
      obtain ⟨h1, h2⟩ := Index_single_some c s k hk
      refine ⟨?_, ?_⟩
      · simp only [List.take_succ_cons, List.mem_cons, not_or]
        exact ⟨fun e => hx e.symm, h1⟩
      · simp only [List.take_succ_cons, List.drop_succ_cons, List.cons_append]
        rw [← h2]

theorem Index_single_none (c : Char) :
    ∀ s : GoString, Index s [c] = none → c ∉ s
  | [], _ => by simp
  | x :: s, h => by
    rw [Index_single_cons] at h
    by_cases hx : x = c
    · simp [hx] at h
    · simp only [hx, if_false, Option.map_eq_none'] at h
      have := Index_single_none c s h
      simp only [List.mem_cons, not_or]
      exact ⟨fun e => hx e.symm, this⟩

/-- The cutting loop on a string without the separator returns it whole. -/
theorem genSplitLoop_of_not_mem (c : Char) (k : Nat) (s : GoString) (h : c ∉ s) :
    genSplitLoop [c] 0 k s = [s] := by
  cases k <;> simp [genSplitLoop, Index_single_of_not_mem c s h]

/-- The cutting loop cuts at the first separator. -/
theorem genSplitLoop_append (c : Char) (k : Nat) (a r : GoString) (h : c ∉ a) :
    genSplitLoop [c] 0 (k + 1) (a ++ c :: r) = a :: genSplitLoop [c] 0 k r := by
  simp [genSplitLoop, Index_single_append c r a h]

/-- The number of parts the cutting loop returns. -/
theorem genSplitLoop_length (c : Char) :
    ∀ (k : Nat) (s : GoString), (genSplitLoop [c] 0 k s).length = min k (s.count c) + 1
  | 0, s => by simp [genSplitLoop]
  | k + 1, s => by
    cases hi : Index s [c] with
    | none =>
      have := Index_single_none c s hi
      simp [genSplitLoop, hi, List.count_eq_zero_of_not_mem this]
    | some m =>
      obtain ⟨h1, h2⟩ := Index_single_some c s m hi
      have hc : s.count c = (s.drop (m + 1)).count c + 1 := by
        conv_lhs => rw [h2]
        simp [List.count_append, List.count_eq_zero_of_not_mem h1]
      have ih := genSplitLoop_length c k (s.drop (m + 1))
      simp only [genSplitLoop, hi, List.length_cons, List.length_singleton, List.length_nil,
        Nat.zero_add, ih, hc]
      omega

/-- With the separator `c` and the limit 3, `SplitN` runs the cutting loop for at
most two cuts. -/
theorem SplitN_single_three (c : Char) (s : GoString) :
    SplitN s [c] 3 = genSplitLoop [c] 0 (min 2 s.length) s := by
  have h : ((if (3 : Int) > (s.length : Int) + 1 then (s.length : Int) + 1 else 3) - 1).toNat
      = min 2 s.length := by
    split <;> omega
  simp only [SplitN, genSplit]
  simp [h]

/-- Splitting `a:b:c`, where `a` and `b` hold no separator, gives the three
parts. -/
theorem SplitN_three_parts (c : Char) (a b r : GoString) (ha : c ∉ a) (hb : c ∉ b) :
    SplitN (a ++ c :: (b ++ c :: r)) [c] 3 = [a, b, r] := by
  have hlen : min 2 (a ++ c :: (b ++ c :: r)).length = 2 := by
    simp only [List.length_append, List.length_cons]
    omega
  rw [SplitN_single_three, hlen, genSplitLoop_append c 1 a _ ha,
    genSplitLoop_append c 0 b _ hb]
  simp [genSplitLoop]

/-- Three parts returned by `SplitN` with limit 3 are the string cut at its first
two separators. -/
theorem SplitN_three_inv (c : Char) (s p0 p1 p2 : GoString)
    (h : SplitN s [c] 3 = [p0, p1, p2]) :
    s = p0 ++ c :: (p1 ++ c :: p2) ∧ c ∉ p0 ∧ c ∉ p1 := by
  have hl := congrArg List.length h
  rw [SplitN_single_three, genSplitLoop_length] at hl
  simp only [List.length_cons, List.length_nil] at hl
  have hk : min 2 s.length = 2 := by omega
  rw [SplitN_single_three, hk] at h
  cases hi : Index s [c] with
  | none => simp [genSplitLoop, hi] at h
  | some m =>
    obtain ⟨h1, h2⟩ := Index_single_some c s m hi
    cases hj : Index (s.drop (m + 1)) [c] with
    | none => simp [genSplitLoop, hi, hj] at h
    | some j =>
      obtain ⟨h3, h4⟩ := Index_single_some c _ j hj
      simp only [genSplitLoop, hi, hj, List.length_cons, List.length_nil, Nat.add_zero,
        Nat.zero_add, List.cons.injEq, and_true] at h
      obtain ⟨e0, e1, e2⟩ := h
      subst e0 e1 e2
      refine ⟨?_, h1, h3⟩
      rw [← h4, ← h2]

end strings

/-! ## Properties of the identity codec -/

theorem colon_toList : ":".toList = [':'] := rfl

/-- The parser returns either the three non-empty parts of the split, without an
error, or three empty strings with its error. -/
theorem parseID_cases (id : GoString) :
    (∃ p0 p1 p2, strings.SplitN id [':'] 3 = [p0, p1, p2] ∧ p0 ≠ [] ∧ p1 ≠ [] ∧ p2 ≠ [] ∧
        resourceAwsConnectLexBotAssociationParseID id = (p0, p1, p2, none)) ∨
      ((¬ (strings.SplitN id [':'] 3).length = 3 ∨ [] ∈ strings.SplitN id [':'] 3) ∧
        resourceAwsConnectLexBotAssociationParseID id = ([], [], [], some (parseIDError id))) := by
  unfold resourceAwsConnectLexBotAssociationParseID parseIDError
  rw [colon_toList]
  generalize strings.SplitN id [':'] 3 = parts
  match parts with
  | [] => right; simp
  | [_] => right; simp
  | [_, _] => right; simp
  | _ :: _ :: _ :: _ :: _ => right; simp
  | [p0, p1, p2] =>
    by_cases h : p0 = [] ∨ p1 = [] ∨ p2 = []
    · right
      refine ⟨Or.inr ?_, ?_⟩
      · rcases h with h | h | h <;> simp [h]
      · simp [h]
    · left
      refine ⟨p0, p1, p2, rfl, ?_⟩
      simp only [not_or] at h
      simp [h.1, h.2.1, h.2.2]

/-- The parser applied to `a:b:c` with `a`, `b`, `c` non-empty and no `:` in `a`
and `b`. -/
theorem parseID_SprintfID (a b c : GoString) (ha : a ≠ []) (hb : b ≠ []) (hc : c ≠ [])
    (ca : ':' ∉ a) (cb : ':' ∉ b) :
    resourceAwsConnectLexBotAssociationParseID (fmt.SprintfID a b c) = (a, b, c, none) := by
  have hs : strings.SplitN (fmt.SprintfID a b c) [':'] 3 = [a, b, c] := by
    have := strings.SplitN_three_parts ':' a b c ca cb
    simpa [fmt.SprintfID, colon_toList] using this
  rcases parseID_cases (fmt.SprintfID a b c) with ⟨p0, p1, p2, h, -, -, -, e⟩ | ⟨h, -⟩
  · rw [hs] at h
    simp only [List.cons.injEq, and_true] at h
    obtain ⟨rfl, rfl, rfl⟩ := h
    exact e
  · rw [hs] at h
    simp [ha.symm, hb.symm, hc.symm] at h

/-- A successful parse returns parts that rebuild the ID. -/
theorem parseID_ok (id instanceID name region : GoString)
    (h : resourceAwsConnectLexBotAssociationParseID id = (instanceID, name, region, none)) :
    fmt.SprintfID instanceID name region = id ∧ instanceID ≠ [] ∧ name ≠ [] ∧ region ≠ [] ∧
      ':' ∉ instanceID ∧ ':' ∉ name := by
  rcases parseID_cases id with ⟨p0, p1, p2, hs, h0, h1, h2, e⟩ | ⟨-, e⟩
  · rw [e] at h
    simp only [Prod.mk.injEq, and_true] at h
    obtain ⟨rfl, rfl, rfl⟩ := h
    obtain ⟨e1, e2, e3⟩ := strings.SplitN_three_inv ':' id _ _ _ hs
    refine ⟨?_, h0, h1, h2, e2, e3⟩
    conv_rhs => rw [e1]
    simp [fmt.SprintfID, colon_toList]
  · rw [e] at h
    simp at h

/-- C1: round trip of the identity codec.  For every triple
(instanceID, name, region) of non-empty strings none of which contains `:`, the
parser applied to the ID built by `fmt.Sprintf("%s:%s:%s", instanceID, name,
region)` returns exactly (instanceID, name, region) with a nil error. -/
theorem parseID_roundtrip (instanceID name region : GoString)
    (h1 : instanceID ≠ []) (h2 : name ≠ []) (h3 : region ≠ [])
    (c1 : ':' ∉ instanceID) (c2 : ':' ∉ name) (_c3 : ':' ∉ region) :
    resourceAwsConnectLexBotAssociationParseID (fmt.SprintfID instanceID name region)
      = (instanceID, name, region, none) :=
  parseID_SprintfID instanceID name region h1 h2 h3 c1 c2

/-- The round trip at ("i-1", "bot-a", "us-east-1"): the triple encodes to
"i-1:bot-a:us-east-1" and decodes back to the same three parts. -/
theorem parseID_roundtrip_witness :
    fmt.SprintfID "i-1".toList "bot-a".toList "us-east-1".toList = "i-1:bot-a:us-east-1".toList ∧
    resourceAwsConnectLexBotAssociationParseID "i-1:bot-a:us-east-1".toList
      = ("i-1".toList, "bot-a".toList, "us-east-1".toList, none) :=
  ⟨by decide,
   parseID_roundtrip "i-1".toList "bot-a".toList "us-east-1".toList
     (by decide) (by decide) (by decide) (by decide) (by decide) (by decide)⟩

/-- C2: for every string id, the parser returns an error if and only if the split
of id on `:` into at most 3 parts has fewer than 3 parts (id holds fewer than two
`:`) or has an empty part; equivalently, if and only if id is not of the form
`a:b:c` with `a`, `b`, `c` non-empty and no `:` in `a` and `b`.  Every id without
a `:` is rejected, and on error the three returned strings are empty. -/
theorem parseID_error_iff (id : GoString) :
    ((resourceAwsConnectLexBotAssociationParseID id).2.2.2 ≠ none ↔
      (id.count ':' < 2 ∨ [] ∈ strings.SplitN id ":".toList 3)) ∧
    ((strings.SplitN id ":".toList 3).length < 3 ↔ id.count ':' < 2) ∧
    ((resourceAwsConnectLexBotAssociationParseID id).2.2.2 ≠ none ↔
      ¬ ∃ a b c : GoString, a ≠ [] ∧ b ≠ [] ∧ c ≠ [] ∧ ':' ∉ a ∧ ':' ∉ b ∧
        id = a ++ ":".toList ++ b ++ ":".toList ++ c) ∧
    (':' ∉ id → (resourceAwsConnectLexBotAssociationParseID id).2.2.2 ≠ none) ∧
    ((resourceAwsConnectLexBotAssociationParseID id).2.2.2 ≠ none →
      (resourceAwsConnectLexBotAssociationParseID id).1 = [] ∧
      (resourceAwsConnectLexBotAssociationParseID id).2.1 = [] ∧
      (resourceAwsConnectLexBotAssociationParseID id).2.2.1 = []) := by
  rw [colon_toList]
  have hlen : (strings.SplitN id [':'] 3).length = min 2 (id.count ':') + 1 := by
    rw [strings.SplitN_single_three, strings.genSplitLoop_length]
    have := List.count_le_length ':' id
    omega
  have hlt : (strings.SplitN id [':'] 3).length < 3 ↔ id.count ':' < 2 := by
    rw [hlen]; omega
  have hmain : (resourceAwsConnectLexBotAssociationParseID id).2.2.2 ≠ none ↔
      (id.count ':' < 2 ∨ [] ∈ strings.SplitN id [':'] 3) := by
    rcases parseID_cases id with ⟨p0, p1, p2, hs, h0, h1, h2, e⟩ | ⟨h, e⟩
    · rw [e]
      have hc : ¬ id.count ':' < 2 := by
        rw [← hlt, hs]; simp
      simp [hs, hc, h0.symm, h1.symm, h2.symm]
    · rw [e]
      simp only [ne_eq, reduceCtorEq, not_false_eq_true, true_iff]
      rcases h with h | h
      · left
        rw [← hlt]
        rw [hlen] at h ⊢
        omega
      · exact Or.inr h
  refine ⟨hmain, hlt, ?_, ?_, ?_⟩
  · constructor
    · rintro herr ⟨a, b, c, ha, hb, hc, ca, cb, rfl⟩
      have := parseID_SprintfID a b c ha hb hc ca cb
      simp only [fmt.SprintfID, colon_toList] at this
      rw [this] at herr
      exact herr rfl
    · intro hno herr
      rcases parseID_cases id with ⟨p0, p1, p2, hs, h0, h1, h2, -⟩ | ⟨-, e⟩
      · obtain ⟨e1, e2, e3⟩ := strings.SplitN_three_inv ':' id _ _ _ hs
        exact hno ⟨p0, p1, p2, h0, h1, h2, e2, e3, by rw [e1]; simp⟩
      · rw [e] at herr
        simp at herr
  · intro hnot
    rw [hmain]
    left
    rw [List.count_eq_zero_of_not_mem hnot]
    omega
  · intro herr
    rcases parseID_cases id with ⟨p0, p1, p2, -, -, -, -, e⟩ | ⟨-, e⟩
    · rw [e] at herr
      exact absurd rfl herr
    · rw [e]
      exact ⟨rfl, rfl, rfl⟩

/-- The ID "onlyonepart" holds no `:`; it is rejected with three empty strings. -/
theorem parseID_error_iff_witness :
    ':' ∉ "onlyonepart".toList ∧
    (resourceAwsConnectLexBotAssociationParseID "onlyonepart".toList).2.2.2 ≠ none ∧
    (resourceAwsConnectLexBotAssociationParseID "onlyonepart".toList).1 = [] :=
  ⟨by decide,
   (parseID_error_iff "onlyonepart".toList).2.2.2.1 (by decide),
   ((parseID_error_iff "onlyonepart".toList).2.2.2.2
     ((parseID_error_iff "onlyonepart".toList).2.2.2.1 (by decide))).1⟩

/-- C7: a delimiter inside a part makes decoding ambiguous.  Two distinct triples
of non-empty strings have the same encoded ID, and for the triple
("a:b", "c", "d"), whose first part holds a `:`, the parser succeeds on the
encoded ID but returns ("a", "b", "c:d"), a triple different from the one
encoded. -/
theorem parseID_delimiter_collision :
    (∃ p q : GoString × GoString × GoString,
      p ≠ q ∧ p.1 ≠ [] ∧ p.2.1 ≠ [] ∧ p.2.2 ≠ [] ∧ q.1 ≠ [] ∧ q.2.1 ≠ [] ∧ q.2.2 ≠ [] ∧
      fmt.SprintfID p.1 p.2.1 p.2.2 = fmt.SprintfID q.1 q.2.1 q.2.2) ∧
    (∃ p : GoString × GoString × GoString,
      p.1 ≠ [] ∧ p.2.1 ≠ [] ∧ p.2.2 ≠ [] ∧ (':' ∈ p.1 ∨ ':' ∈ p.2.1 ∨ ':' ∈ p.2.2) ∧
      (resourceAwsConnectLexBotAssociationParseID (fmt.SprintfID p.1 p.2.1 p.2.2)).2.2.2 = none ∧
      resourceAwsConnectLexBotAssociationParseID (fmt.SprintfID p.1 p.2.1 p.2.2)
        ≠ (p.1, p.2.1, p.2.2, none)) ∧
    resourceAwsConnectLexBotAssociationParseID
        (fmt.SprintfID "a:b".toList "c".toList "d".toList)
      = ("a".toList, "b".toList, "c:d".toList, none) :=
  ⟨⟨("a:b".toList, "c".toList, "d".toList), ("a".toList, "b".toList, "c:d".toList),
      by decide⟩,
    ⟨("a:b".toList, "c".toList, "d".toList), by decide⟩,
    by decide⟩

/-! ## Properties of the handlers -/

/-- What a read that reports an error leaves behind: the resource data is
untouched and the finder was the only request. -/
theorem read_error_frame {σ : Type} (conn : Remote σ) (w : σ) (d : schema.ResourceData)
    (h : diag.HasError (resourceAwsConnectLexBotAssociationRead conn w d).diags = true) :
    (resourceAwsConnectLexBotAssociationRead conn w d).d = d ∧
    (resourceAwsConnectLexBotAssociationRead conn w d).calls =
      [RemoteCall.LexBotAssociationByName (d.Get schema.Key.instance_id)
        (d.Get schema.Key.bot_name)] := by
  unfold resourceAwsConnectLexBotAssociationRead at h ⊢
  rcases hf : conn.LexBotAssociationByName w (d.Get schema.Key.instance_id)
    (d.Get schema.Key.bot_name) with ⟨w1, lexBot, err⟩
  simp only [hf] at h ⊢
  cases err with
  | some e => simp
  | none =>
    cases lexBot with
    | none => simp
    | some lb => simp [diag.HasError] at h

/-- The read always sends exactly the finder request. -/
theorem read_calls {σ : Type} (conn : Remote σ) (w : σ) (d : schema.ResourceData) :
    (resourceAwsConnectLexBotAssociationRead conn w d).calls =
      [RemoteCall.LexBotAssociationByName (d.Get schema.Key.instance_id)
        (d.Get schema.Key.bot_name)] := by
  unfold resourceAwsConnectLexBotAssociationRead
  rcases hf : conn.LexBotAssociationByName w (d.Get schema.Key.instance_id)
    (d.Get schema.Key.bot_name) with ⟨w1, lexBot, err⟩
  simp only [hf]
  cases err <;> cases lexBot <;> simp

/-- The delete handler on an ID the parser accepts. -/
theorem delete_of_parse_ok {σ : Type} (conn : Remote σ) (w : σ) (d : schema.ResourceData)
    (instanceID name region : GoString)
    (h : resourceAwsConnectLexBotAssociationParseID d.Id = (instanceID, name, region, none)) :
    resourceAwsConnectLexBotAssociationDelete conn w d =
      match conn.DisassociateLexBot w
        { InstanceId := some instanceID, BotName := some name, LexRegion := some region } with
      | (w1, some _) =>
        { d := d
          diags := [{ Severity := diag.Severity.Error
                      Summary := "error deleting Connect Lex Bot Association (".toList
                        ++ instanceID ++ "): %!s(<nil>)".toList }]
          world := w1
          calls := [RemoteCall.DisassociateLexBot
            { InstanceId := some instanceID, BotName := some name, LexRegion := some region }] }
      | (w1, none) =>
        { d := d
          diags := []
          world := w1
          calls := [RemoteCall.DisassociateLexBot
            { InstanceId := some instanceID, BotName := some name, LexRegion := some region }] } := by
  unfold resourceAwsConnectLexBotAssociationDelete
  rw [h]
  rcases hd : conn.DisassociateLexBot w
    { InstanceId := some instanceID, BotName := some name, LexRegion := some region }
    with ⟨w1, dissErr⟩
  cases dissErr <;>
    simp [hd, aws.String, diag.FromErr, fmt.Errorf, fmt.verbS, List.append_assoc]

/-- The delete handler on an ID the parser rejects: the parse error is returned
and no request is sent. -/
theorem delete_of_parse_error {σ : Type} (conn : Remote σ) (w : σ) (d : schema.ResourceData)
    (h : (resourceAwsConnectLexBotAssociationParseID d.Id).2.2.2 ≠ none) :
    resourceAwsConnectLexBotAssociationDelete conn w d =
      { d := d
        diags := diag.FromErr (some (parseIDError d.Id))
        world := w
        calls := [] } := by
  rcases parseID_cases d.Id with ⟨p0, p1, p2, -, -, -, -, e⟩ | ⟨-, e⟩
  · rw [e] at h
    exact absurd rfl h
  · unfold resourceAwsConnectLexBotAssociationDelete
    rw [e]
    simp

/-- The importer on an ID the parser rejects: the parse error is returned with no
resource. -/
theorem importer_state_of_parse_error (d : schema.ResourceData)
    (h : (resourceAwsConnectLexBotAssociationParseID d.Id).2.2.2 ≠ none) :
    resourceAwsConnectLexBotAssociationImporterState d = ([], some (parseIDError d.Id)) := by
  rcases parseID_cases d.Id with ⟨p0, p1, p2, -, -, -, -, e⟩ | ⟨-, e⟩
  · rw [e] at h
    exact absurd rfl h
  · unfold resourceAwsConnectLexBotAssociationImporterState
    rw [e]
    simp

/-- The create handler when `AssociateLexBot` succeeds: the ID is set and the read
runs on the new remote state. -/
theorem create_of_associate_ok {σ : Type} (conn : Remote σ) (w : σ) (d : schema.ResourceData)
    (h : (conn.AssociateLexBotWithContext w (createInput d)).2 = none) :
    resourceAwsConnectLexBotAssociationCreate conn w d =
      { resourceAwsConnectLexBotAssociationRead conn
          (conn.AssociateLexBotWithContext w (createInput d)).1 (d.SetId (createLbaId d)) with
        calls := RemoteCall.AssociateLexBot (createInput d) ::
          (resourceAwsConnectLexBotAssociationRead conn
            (conn.AssociateLexBotWithContext w (createInput d)).1
            (d.SetId (createLbaId d))).calls } := by
  unfold resourceAwsConnectLexBotAssociationCreate
  rcases ha : conn.AssociateLexBotWithContext w (createInput d) with ⟨w1, err⟩
  rw [ha] at h
  simp only at h
  subst h
  simp only [createInput] at ha
  simp only [ha]
  rfl

/-- The create handler when `AssociateLexBot` fails. -/
theorem create_of_associate_error {σ : Type} (conn : Remote σ) (w : σ)
    (d : schema.ResourceData) (e : GoError)
    (h : (conn.AssociateLexBotWithContext w (createInput d)).2 = some e) :
    resourceAwsConnectLexBotAssociationCreate conn w d =
      { d := d
        diags := [{ Severity := diag.Severity.Error
                    Summary := "error creating Connect Lex Bot Association (".toList
                      ++ createLbaId d ++ "): ".toList ++ e.Error }]
        world := (conn.AssociateLexBotWithContext w (createInput d)).1
        calls := [RemoteCall.AssociateLexBot (createInput d)] } := by
  unfold resourceAwsConnectLexBotAssociationCreate
  rcases ha : conn.AssociateLexBotWithContext w (createInput d) with ⟨w1, err⟩
  rw [ha] at h
  simp only at h
  subst h
  simp only [createInput] at ha
  simp only [ha]
  simp [diag.FromErr, fmt.Errorf, fmt.verbS, createLbaId, createInput]

/-- C8: no rollback on create-then-read failure.  For every configuration, if
the `AssociateLexBot` call succeeds and the read that follows fails, create
leaves the resource ID set to `<instance_id>:<bot_name>:<lex_region>` (a
non-empty ID: the resource is reported present), reports the error of the read
and sends no `DisassociateLexBot` request; and if the `AssociateLexBot` call
fails, create returns an error, leaves the resource data without the new ID and
sends no request besides `AssociateLexBot`, so the read is not performed. -/
theorem create_no_rollback {σ : Type} (conn : Remote σ) (w : σ) (d : schema.ResourceData) :
    ((conn.AssociateLexBotWithContext w (createInput d)).2 = none →
      diag.HasError (resourceAwsConnectLexBotAssociationRead conn
        (conn.AssociateLexBotWithContext w (createInput d)).1
        (d.SetId (createLbaId d))).diags = true →
      (resourceAwsConnectLexBotAssociationCreate conn w d).d = d.SetId (createLbaId d) ∧
      (resourceAwsConnectLexBotAssociationCreate conn w d).d.Id =
        d.Get schema.Key.instance_id ++ ":".toList ++ d.Get schema.Key.bot_name ++ ":".toList
          ++ d.Get schema.Key.lex_region ∧
      (resourceAwsConnectLexBotAssociationCreate conn w d).d.Id ≠ [] ∧
      diag.HasError (resourceAwsConnectLexBotAssociationCreate conn w d).diags = true ∧
      (resourceAwsConnectLexBotAssociationCreate conn w d).calls =
        [RemoteCall.AssociateLexBot (createInput d),
         RemoteCall.LexBotAssociationByName (d.Get schema.Key.instance_id)
           (d.Get schema.Key.bot_name)] ∧
      ∀ input, RemoteCall.DisassociateLexBot input ∉
        (resourceAwsConnectLexBotAssociationCreate conn w d).calls) ∧
    (∀ e, (conn.AssociateLexBotWithContext w (createInput d)).2 = some e →
      diag.HasError (resourceAwsConnectLexBotAssociationCreate conn w d).diags = true ∧
      (resourceAwsConnectLexBotAssociationCreate conn w d).d = d ∧
      (resourceAwsConnectLexBotAssociationCreate conn w d).calls =
        [RemoteCall.AssociateLexBot (createInput d)]) := by
  constructor
  · intro hassoc hread
    obtain ⟨hd, hc⟩ := read_error_frame conn _ _ hread
    rw [create_of_associate_ok conn w d hassoc]
    simp only [hd, hc]
    refine ⟨trivial, ?_, ?_, hread, ?_, ?_⟩
    · simp [schema.ResourceData.Id, schema.ResourceData.SetId, createLbaId, fmt.SprintfID]
    · simp [schema.ResourceData.Id, schema.ResourceData.SetId, createLbaId, fmt.SprintfID,
        colon_toList]
    · simp [schema.ResourceData.Get, schema.ResourceData.SetId]
    · intro input
      simp
  · intro e he
    rw [create_of_associate_error conn w d e he]
    simp [diag.HasError]

/-- Both branches of `create_no_rollback` on concrete runs: on a service whose
finder sees nothing, create associates, keeps the ID "i-1:bot-a:us-east-1" and
sends no `DisassociateLexBot`; on a service that fails every call, create sends
only `AssociateLexBot` and leaves the resource data as it was. -/
theorem create_no_rollback_witness :
    ((resourceAwsConnectLexBotAssociationCreate staleFinderService [] (sampleData [])).d.Id
        = "i-1".toList ++ ":".toList ++ "bot-a".toList ++ ":".toList ++ "us-east-1".toList ∧
      ∀ input, RemoteCall.DisassociateLexBot input ∉
        (resourceAwsConnectLexBotAssociationCreate staleFinderService [] (sampleData [])).calls) ∧
    ((resourceAwsConnectLexBotAssociationCreate
        (failingService throttlingError) () (sampleData [])).d = sampleData [] ∧
      (resourceAwsConnectLexBotAssociationCreate
        (failingService throttlingError) () (sampleData [])).calls
        = [RemoteCall.AssociateLexBot (createInput (sampleData []))]) :=
  ⟨⟨((create_no_rollback staleFinderService [] (sampleData [])).1
        (by decide) (by decide)).2.1,
    ((create_no_rollback staleFinderService [] (sampleData [])).1
        (by decide) (by decide)).2.2.2.2.2⟩,
   ((create_no_rollback (failingService throttlingError) () (sampleData [])).2
        throttlingError (by decide)).2⟩

/-- C3, as stated, fails: on a well-formed ID whose association is absent from
the remote service, `DisassociateLexBot` reports `ResourceNotFoundException` and
delete returns an error diagnostic; and of two deletes of the same identity the
first succeeds and the second returns an error diagnostic. -/
theorem delete_not_found_counterexample :
    resourceAwsConnectLexBotAssociationParseID "i-1:bot-a:us-east-1".toList
      = ("i-1".toList, "bot-a".toList, "us-east-1".toList, none) ∧
    (connectService.DisassociateLexBot []
      (deleteInput "i-1".toList "bot-a".toList "us-east-1".toList)).2.map GoError.isNotFound
      = some true ∧
    diag.HasError (resourceAwsConnectLexBotAssociationDelete connectService []
      (sampleData "i-1:bot-a:us-east-1".toList)).diags = true ∧
    (resourceAwsConnectLexBotAssociationDelete connectService
      [("i-1".toList, "bot-a".toList, "us-east-1".toList)]
      (sampleData "i-1:bot-a:us-east-1".toList)).diags = [] ∧
    diag.HasError (resourceAwsConnectLexBotAssociationDelete connectService
      (resourceAwsConnectLexBotAssociationDelete connectService
        [("i-1".toList, "bot-a".toList, "us-east-1".toList)]
        (sampleData "i-1:bot-a:us-east-1".toList)).world
      (sampleData "i-1:bot-a:us-east-1".toList)).diags = true := by
  decide

/-- C3, amended: for every well-formed ID, delete sends one `DisassociateLexBot`
request for the parts of the ID; it returns success (no diagnostics) exactly when
that call returns no error, and it returns an error diagnostic whenever the call
reports an error, a not-found report included. -/
theorem delete_success_iff {σ : Type} (conn : Remote σ) (w : σ) (d : schema.ResourceData)
    (instanceID name region : GoString)
    (h : resourceAwsConnectLexBotAssociationParseID d.Id = (instanceID, name, region, none)) :
    ((resourceAwsConnectLexBotAssociationDelete conn w d).diags = [] ↔
      (conn.DisassociateLexBot w (deleteInput instanceID name region)).2 = none) ∧
    (∀ e, (conn.DisassociateLexBot w (deleteInput instanceID name region)).2 = some e →
      diag.HasError (resourceAwsConnectLexBotAssociationDelete conn w d).diags = true) ∧
    (resourceAwsConnectLexBotAssociationDelete conn w d).calls =
      [RemoteCall.DisassociateLexBot (deleteInput instanceID name region)] := by
  rw [delete_of_parse_ok conn w d instanceID name region h]
  simp only [deleteInput, aws.String]
  rcases conn.DisassociateLexBot w
    { InstanceId := some instanceID, BotName := some name, LexRegion := some region }
    with ⟨w1, dissErr⟩
  cases dissErr <;> simp [diag.HasError]

/-- The amended C3 on the reference service: the association is absent, the call
reports not-found, and delete returns an error diagnostic. -/
theorem delete_success_iff_witness :
    resourceAwsConnectLexBotAssociationParseID (sampleData "i-1:bot-a:us-east-1".toList).Id
      = ("i-1".toList, "bot-a".toList, "us-east-1".toList, none) ∧
    diag.HasError (resourceAwsConnectLexBotAssociationDelete connectService []
      (sampleData "i-1:bot-a:us-east-1".toList)).diags = true :=
  ⟨by decide,
   (delete_success_iff connectService [] (sampleData "i-1:bot-a:us-east-1".toList)
      "i-1".toList "bot-a".toList "us-east-1".toList (by decide)).2.1
      { Error := "ResourceNotFoundException: Lex bot association not found".toList
        Code := connect.ErrCodeResourceNotFoundException } (by decide)⟩

/-- C4, as stated, fails: the finder reports no association (a nil result and no
error), and read returns an error diagnostic and leaves the resource ID in
place instead of signalling removal. -/
theorem read_not_found_counterexample :
    (connectService.LexBotAssociationByName [] "i-1".toList "bot-a".toList).2 = (none, none) ∧
    (resourceAwsConnectLexBotAssociationRead connectService []
      (sampleData "i-1:bot-a:us-east-1".toList)).diags =
      [{ Severity := diag.Severity.Error
         Summary := "error finding LexBot Association by name (bot-a): not found".toList }] ∧
    diag.HasError (resourceAwsConnectLexBotAssociationRead connectService []
      (sampleData "i-1:bot-a:us-east-1".toList)).diags = true ∧
    (resourceAwsConnectLexBotAssociationRead connectService []
      (sampleData "i-1:bot-a:us-east-1".toList)).d.Id = "i-1:bot-a:us-east-1".toList := by
  decide

/-- C4, amended: for every state, when the finder reports that no Lex bot
association exists for (instance_id, bot_name) (a nil result with no error), read
returns one error diagnostic, `error finding LexBot Association by name
(<bot_name>): not found`, and leaves the resource data, its ID included,
unchanged. -/
theorem read_not_found {σ : Type} (conn : Remote σ) (w : σ) (d : schema.ResourceData)
    (h : (conn.LexBotAssociationByName w (d.Get schema.Key.instance_id)
      (d.Get schema.Key.bot_name)).2 = (none, none)) :
    (resourceAwsConnectLexBotAssociationRead conn w d).diags =
      [{ Severity := diag.Severity.Error
         Summary := "error finding LexBot Association by name (".toList
           ++ d.Get schema.Key.bot_name ++ "): not found".toList }] ∧
    diag.HasError (resourceAwsConnectLexBotAssociationRead conn w d).diags = true ∧
    (resourceAwsConnectLexBotAssociationRead conn w d).d = d := by
  unfold resourceAwsConnectLexBotAssociationRead
  rcases hf : conn.LexBotAssociationByName w (d.Get schema.Key.instance_id)
    (d.Get schema.Key.bot_name) with ⟨w1, lexBot, err⟩
  rw [hf] at h
  simp only [Prod.mk.injEq] at h
  obtain ⟨rfl, rfl⟩ := h
  simp [hf, diag.FromErr, fmt.Errorf, diag.HasError]

/-- The amended C4 on the reference service without associations. -/
theorem read_not_found_witness :
    (connectService.LexBotAssociationByName []
      ((sampleData "i-1:bot-a:us-east-1".toList).Get schema.Key.instance_id)
      ((sampleData "i-1:bot-a:us-east-1".toList).Get schema.Key.bot_name)).2 = (none, none) ∧
    (resourceAwsConnectLexBotAssociationRead connectService []
      (sampleData "i-1:bot-a:us-east-1".toList)).d = sampleData "i-1:bot-a:us-east-1".toList :=
  ⟨by decide,
   (read_not_found connectService [] (sampleData "i-1:bot-a:us-east-1".toList)
      (by decide)).2.2⟩

/-- C5, as stated, fails: `instance_id` is not declared `ForceNew`, and a change
to it is handled by the update handler of the resource, in place. -/
theorem replacement_policy_counterexample :
    ((resourceAwsConnectLexBotAssociation Unit 300 300).Schema
      schema.Key.instance_id).ForceNew = false ∧
    (resourceAwsConnectLexBotAssociation Unit 300 300).handleChange schema.Key.instance_id
      = schema.ChangeHandling.InPlaceUpdate := by
  decide

/-- C5, amended: none of the three key-forming attributes (instance_id, bot_name,
lex_region) is declared `ForceNew`; each is a required string.  The resource
declares an update handler, which is the read function, and a change to a
key-forming attribute is handled by that update handler, not by replacement. -/
theorem replacement_policy (σ : Type) (createTimeout deleteTimeout : Nat) (key : schema.Key) :
    ((resourceAwsConnectLexBotAssociation σ createTimeout deleteTimeout).Schema key).ForceNew
      = false ∧
    ((resourceAwsConnectLexBotAssociation σ createTimeout deleteTimeout).Schema key).Required
      = true ∧
    (resourceAwsConnectLexBotAssociation σ createTimeout deleteTimeout).UpdateContext
      = some resourceAwsConnectLexBotAssociationRead ∧
    (resourceAwsConnectLexBotAssociation σ createTimeout deleteTimeout).handleChange key
      = schema.ChangeHandling.InPlaceUpdate := by
  cases key <;> simp [resourceAwsConnectLexBotAssociation, schema.Resource.handleChange]

/-- The read handler when the finder returns a bot: the attributes and the ID are
set from the returned values, whatever they are. -/
theorem read_of_found {σ : Type} (conn : Remote σ) (w w1 : σ) (d : schema.ResourceData)
    (lexBot : connect.LexBot)
    (h : conn.LexBotAssociationByName w (d.Get schema.Key.instance_id)
      (d.Get schema.Key.bot_name) = (w1, some lexBot, none)) :
    (resourceAwsConnectLexBotAssociationRead conn w d).diags = [] ∧
    (resourceAwsConnectLexBotAssociationRead conn w d).d.Id =
      fmt.SprintfID (d.Get schema.Key.instance_id) (lexBot.Name.getD [])
        (lexBot.LexRegion.getD []) := by
  unfold resourceAwsConnectLexBotAssociationRead
  simp only [h]
  simp [schema.ResourceData.Id, schema.ResourceData.SetId, schema.ResourceData.Set,
    schema.ResourceData.Get]

/-- The ID the read handler leaves always has the form `<instance_id>:n:r` or is
the ID it was given: nothing checks the components. -/
theorem read_id_unchecked {σ : Type} (conn : Remote σ) (w : σ) (d : schema.ResourceData) :
    (resourceAwsConnectLexBotAssociationRead conn w d).d.Id = d.Id ∨
    ∃ n r, (resourceAwsConnectLexBotAssociationRead conn w d).d.Id =
      fmt.SprintfID (d.Get schema.Key.instance_id) n r := by
  rcases hf : conn.LexBotAssociationByName w (d.Get schema.Key.instance_id)
    (d.Get schema.Key.bot_name) with ⟨w1, lexBot, err⟩
  cases err with
  | some e =>
    left
    unfold resourceAwsConnectLexBotAssociationRead
    simp only [hf]
  | none =>
    cases lexBot with
    | none =>
      left
      unfold resourceAwsConnectLexBotAssociationRead
      simp only [hf]
    | some lb => exact Or.inr ⟨_, _, (read_of_found conn w w1 d lb hf).2⟩

/-- Once `AssociateLexBot` succeeds, create leaves an ID of the form
`<instance_id>:n:r` whether the read succeeds or fails: no path checks the
components. -/
theorem create_id_unchecked {σ : Type} (conn : Remote σ) (w : σ) (d : schema.ResourceData)
    (hassoc : (conn.AssociateLexBotWithContext w (createInput d)).2 = none) :
    ∃ n r, (resourceAwsConnectLexBotAssociationCreate conn w d).d.Id =
      fmt.SprintfID (d.Get schema.Key.instance_id) n r := by
  rw [create_of_associate_ok conn w d hassoc]
  rcases read_id_unchecked conn (conn.AssociateLexBotWithContext w (createInput d)).1
    (d.SetId (createLbaId d)) with h | ⟨n, r, h⟩
  · exact ⟨d.Get schema.Key.bot_name, d.Get schema.Key.lex_region, h⟩
  · exact ⟨n, r, h⟩

/-- An ID whose first component is empty is rejected by the parser. -/
theorem parseID_empty_instance (n r : GoString) :
    (resourceAwsConnectLexBotAssociationParseID (fmt.SprintfID [] n r)).2.2.2 ≠ none := by
  intro h
  rcases parseID_cases (fmt.SprintfID [] n r) with ⟨p0, p1, p2, hs, h0, -, -, -⟩ | ⟨-, e⟩
  · obtain ⟨e1, -, -⟩ := strings.SplitN_three_inv ':' _ _ _ _ hs
    cases p0 with
    | nil => exact h0 rfl
    | cons x p0 =>
      obtain ⟨-, c0, -⟩ := strings.SplitN_three_inv ':' _ _ _ _ hs
      simp only [fmt.SprintfID, colon_toList, List.nil_append, List.cons_append,
        List.cons.injEq] at e1
      exact c0 (by simp [← e1.1])
  · rw [e] at h
    simp at h

/-- With an empty instance_id, every create on which `AssociateLexBot` succeeds
leaves an ID that the parser of the resource rejects. -/
theorem create_empty_instance_id {σ : Type} (conn : Remote σ) (w : σ)
    (d : schema.ResourceData) (hempty : d.Get schema.Key.instance_id = [])
    (hassoc : (conn.AssociateLexBotWithContext w (createInput d)).2 = none) :
    (resourceAwsConnectLexBotAssociationParseID
      (resourceAwsConnectLexBotAssociationCreate conn w d).d.Id).2.2.2 ≠ none := by
  obtain ⟨n, r, h⟩ := create_id_unchecked conn w d hassoc
  rw [h, hempty]
  exact parseID_empty_instance n r

/-- The import path does reject: every resource the importer returns has an ID
made of three non-empty components, the ones the parser returned. -/
theorem importer_state_id_parts (d r : schema.ResourceData)
    (h : r ∈ (resourceAwsConnectLexBotAssociationImporterState d).1) :
    ∃ a b c : GoString, a ≠ [] ∧ b ≠ [] ∧ c ≠ [] ∧ r.Id = fmt.SprintfID a b c ∧
      resourceAwsConnectLexBotAssociationParseID r.Id = (a, b, c, none) := by
  rcases parseID_cases d.Id with ⟨p0, p1, p2, -, h0, h1, h2, e⟩ | ⟨-, e⟩
  · obtain ⟨hid, -⟩ := parseID_ok _ _ _ _ e
    unfold resourceAwsConnectLexBotAssociationImporterState at h
    rw [e] at h
    simp only [ne_eq, not_true_eq_false, if_false, List.mem_singleton] at h
    subst h
    refine ⟨p0, p1, p2, h0, h1, h2, ?_, ?_⟩
    · simp [schema.ResourceData.Id, schema.ResourceData.SetId]
    · simpa [schema.ResourceData.Id, schema.ResourceData.SetId, hid] using e
  · unfold resourceAwsConnectLexBotAssociationImporterState at h
    rw [e] at h
    simp at h

/-- C6, what the code does: with the configuration instance_id = "i-1",
bot_name = "bot-a" (which passes the length validation) and lex_region = "",
create does not fail up front; it returns no diagnostics and sets the ID
"i-1:bot-a:", whose third component is empty.  The parser of the resource
rejects that ID, so the delete of the resource just created returns the parse
error and sends no request; the importer rejects the same ID and returns no
resource.  Read does the same as create when the finder returns a bot without a
region: it sets the ID "i-1:bot-a:". -/
theorem create_sets_id_with_empty_component :
    validation.StringLenBetween 2 50 "bot-a".toList = true ∧
    (resourceAwsConnectLexBotAssociationCreate connectService []
      { id := [], bot_name := "bot-a".toList, instance_id := "i-1".toList,
        lex_region := [] }).diags = [] ∧
    (resourceAwsConnectLexBotAssociationCreate connectService []
      { id := [], bot_name := "bot-a".toList, instance_id := "i-1".toList,
        lex_region := [] }).d.Id = "i-1:bot-a:".toList ∧
    fmt.SprintfID "i-1".toList "bot-a".toList [] = "i-1:bot-a:".toList ∧
    (resourceAwsConnectLexBotAssociationParseID "i-1:bot-a:".toList).2.2.2
      = some (parseIDError "i-1:bot-a:".toList) ∧
    (resourceAwsConnectLexBotAssociationDelete connectService
      (resourceAwsConnectLexBotAssociationCreate connectService []
        { id := [], bot_name := "bot-a".toList, instance_id := "i-1".toList,
          lex_region := [] }).world
      (resourceAwsConnectLexBotAssociationCreate connectService []
        { id := [], bot_name := "bot-a".toList, instance_id := "i-1".toList,
          lex_region := [] }).d).diags
      = diag.FromErr (some (parseIDError "i-1:bot-a:".toList)) ∧
    (resourceAwsConnectLexBotAssociationDelete connectService
      (resourceAwsConnectLexBotAssociationCreate connectService []
        { id := [], bot_name := "bot-a".toList, instance_id := "i-1".toList,
          lex_region := [] }).world
      (resourceAwsConnectLexBotAssociationCreate connectService []
        { id := [], bot_name := "bot-a".toList, instance_id := "i-1".toList,
          lex_region := [] }).d).calls = [] ∧
    resourceAwsConnectLexBotAssociationImporterState
      { id := "i-1:bot-a:".toList, bot_name := [], instance_id := [], lex_region := [] }
      = ([], some (parseIDError "i-1:bot-a:".toList)) ∧
    (resourceAwsConnectLexBotAssociationRead regionlessService ()
      (sampleData "i-1:bot-a:us-east-1".toList)).diags = [] ∧
    (resourceAwsConnectLexBotAssociationRead regionlessService ()
      (sampleData "i-1:bot-a:us-east-1".toList)).d.Id = "i-1:bot-a:".toList := by
  decide

/-- C9, what the code does: for every id the parser accepts with
(instanceID, name, region), the importer returns one resource whose ID is the
supplied id, whose instance_id is instanceID and whose bot_name is name, and
whose lex_region is set to name, not to region. -/
theorem importer_state_of_parse_ok (d : schema.ResourceData) (instanceID name region : GoString)
    (h : resourceAwsConnectLexBotAssociationParseID d.Id = (instanceID, name, region, none)) :
    resourceAwsConnectLexBotAssociationImporterState d =
      ([{ id := d.Id, bot_name := name, instance_id := instanceID, lex_region := name }],
        none) := by
  obtain ⟨hid, -⟩ := parseID_ok _ _ _ _ h
  unfold resourceAwsConnectLexBotAssociationImporterState
  rw [h]
  simp [schema.ResourceData.Set, schema.ResourceData.SetId, hid]

/-- The import of "i-1:bot-a:us-east-1": the parser returns the region
"us-east-1", and the imported resource has lex_region = "bot-a". -/
theorem importer_state_of_parse_ok_witness :
    resourceAwsConnectLexBotAssociationParseID "i-1:bot-a:us-east-1".toList
      = ("i-1".toList, "bot-a".toList, "us-east-1".toList, none) ∧
    resourceAwsConnectLexBotAssociationImporterState
      { id := "i-1:bot-a:us-east-1".toList, bot_name := [], instance_id := [],
        lex_region := [] } =
      ([{ id := "i-1:bot-a:us-east-1".toList, bot_name := "bot-a".toList,
          instance_id := "i-1".toList, lex_region := "bot-a".toList }], none) ∧
    "bot-a".toList ≠ "us-east-1".toList :=
  ⟨by decide,
   importer_state_of_parse_ok
     { id := "i-1:bot-a:us-east-1".toList, bot_name := [], instance_id := [], lex_region := [] }
     "i-1".toList "bot-a".toList "us-east-1".toList (by decide),
   by decide⟩

/-- C10, what the code does: for every well-formed ID, when the
`DisassociateLexBot` call fails with an error e, delete returns one error
diagnostic whose message is `error deleting Connect Lex Bot Association
(<instanceID>): %!s(<nil>)`: the cause printed is the nil parse error, whatever
e is. -/
theorem delete_error_message {σ : Type} (conn : Remote σ) (w : σ) (d : schema.ResourceData)
    (instanceID name region : GoString) (e : GoError)
    (h : resourceAwsConnectLexBotAssociationParseID d.Id = (instanceID, name, region, none))
    (he : (conn.DisassociateLexBot w (deleteInput instanceID name region)).2 = some e) :
    (resourceAwsConnectLexBotAssociationDelete conn w d).diags =
      [{ Severity := diag.Severity.Error
         Summary := "error deleting Connect Lex Bot Association (".toList ++ instanceID
           ++ "): %!s(<nil>)".toList }] := by
  rw [delete_of_parse_ok conn w d instanceID name region h]
  simp only [deleteInput, aws.String] at he
  rcases hd : conn.DisassociateLexBot w
    { InstanceId := some instanceID, BotName := some name, LexRegion := some region }
    with ⟨w1, dissErr⟩
  rw [hd] at he
  simp only at he
  subst he
  rfl

/-- The delete of "i-1:bot-a:us-east-1" on a service that fails with
`ThrottlingException: Rate exceeded`: the diagnostic reads
`error deleting Connect Lex Bot Association (i-1): %!s(<nil>)` and does not
contain the message of the remote error. -/
theorem delete_error_message_witness :
    (resourceAwsConnectLexBotAssociationDelete (failingService throttlingError) ()
      (sampleData "i-1:bot-a:us-east-1".toList)).diags =
      [{ Severity := diag.Severity.Error
         Summary := "error deleting Connect Lex Bot Association (i-1): %!s(<nil>)".toList }] ∧
    ¬ (throttlingError.Error <:+:
      "error deleting Connect Lex Bot Association (i-1): %!s(<nil>)".toList) :=
  ⟨delete_error_message (failingService throttlingError) ()
     (sampleData "i-1:bot-a:us-east-1".toList)
     "i-1".toList "bot-a".toList "us-east-1".toList throttlingError (by decide) (by decide),
   by decide⟩
